import Mathlib

/-!
Shallow embedding of the `distra-limit` rate limiter (`src/main.py`).

The repository implements a per-user, per-endpoint token-bucket admission
controller.  The consistency-critical algorithm appears twice in the source:

* `TOKEN_BUCKET_SCRIPT` (main.py lines 72–99), a Lua script executed
  atomically against Redis, parameterised per call by
  `now, window, max_requests, burst`;
* `InMemoryTokenBucket.check_and_update` (main.py lines 115–126), the
  in-process fallback, parameterised by the bucket's stored (instance-divided)
  `max_requests`, `burst`, `window`.

Both run the same replenish/debit computation over a per-key store of
`(tokens, last_update)` pairs, so we embed that computation once
(`tokenBucket` below, over a capacity and a replenish rate) and define the two
source functions as its instantiations.  Numbers (Lua numbers / Python floats)
are modelled as `ℚ`; the Redis hash per key and the Python dict
`self.buckets` are modelled as association lists from string keys to
`(tokens, last_update)` pairs, with Python-dict update semantics (replace in
place, append if absent).
-/

namespace DistraLimit

/-- Association-list lookup, modelling `redis HGET` / Python `dict.get`. -/
def alGet {α : Type} : List (String × α) → String → Option α
  | [], _ => none
  | (k, v) :: rest, key => if k = key then some v else alGet rest key

/-- Association-list store, modelling `redis HMSET` / Python `dict.__setitem__`:
replaces the binding in place if the key is present, appends otherwise. -/
def alSet {α : Type} : List (String × α) → String → α → List (String × α)
  | [], key, v => [(key, v)]
  | (k, w) :: rest, key, v =>
    if k = key then (key, v) :: rest else (k, w) :: alSet rest key v

/-- Per-key bucket store: key ↦ (tokens, last_update).  Models both the Redis
hashes touched by the Lua script and `InMemoryTokenBucket.buckets`. -/
abbrev Buckets := List (String × (ℚ × ℚ))

/-- Lua's `math.min` / Python's `min` on two numbers. -/
def mathMin (a b : ℚ) : ℚ := if a ≤ b then a else b

/-- The pre-debit token count of one admission check (main.py lines 81–88,
equivalently 116–118): read `(tokens, last_update)` for `key`, defaulting to
`(cap, now)` when the key is absent, and compute
`min(cap, tokens + (now - last_update) * rate)`. -/
def tokenBucketNew (cap rate : ℚ) (store : Buckets) (key : String) (now : ℚ) : ℚ :=
  let stored := alGet store key
  let tokens := (Option.map Prod.fst stored).getD cap
  let last_update := (Option.map Prod.snd stored).getD now
  let elapsed := now - last_update
  mathMin cap (tokens + elapsed * rate)

/-- One admission check (main.py lines 81–98, equivalently 116–126): if the
pre-debit count is at least 1, debit one token, persist
`(new_tokens - 1, now)` for `key` and admit; otherwise deny and leave the
store untouched. -/
def tokenBucket (cap rate : ℚ) (store : Buckets) (key : String) (now : ℚ) :
    Bool × Buckets :=
  let new_tokens := tokenBucketNew cap rate store key now
  if 1 ≤ new_tokens then (true, alSet store key (new_tokens - 1, now))
  else (false, store)

/-- `TOKEN_BUCKET_SCRIPT` (main.py lines 72–99): capacity
`max_requests + burst`, replenish rate `max_requests / window`, all passed per
call.  Returns the Lua script's 1/0 as a `Bool` together with the updated
store.  (The `EXPIRE` call is not modelled; an expired key is modelled as an
absent key.) -/
def tokenBucketScript (store : Buckets) (key : String)
    (now window max_requests burst : ℚ) : Bool × Buckets :=
  tokenBucket (max_requests + burst) (max_requests / window) store key now

/-- Pre-debit token count of the Lua script, i.e. its local `new_tokens`
right before the `if new_tokens >= 1` test (main.py line 88). -/
def scriptNewTokens (store : Buckets) (key : String)
    (now window max_requests burst : ℚ) : ℚ :=
  tokenBucketNew (max_requests + burst) (max_requests / window) store key now

/-- `InMemoryTokenBucket` (main.py lines 106–126).  `max_requests`, `burst`
and `window` are the integers stored by `__init__` (after division by
`num_instances`); `buckets` is the per-key dict. -/
structure InMemoryTokenBucket where
  max_requests : ℕ
  burst : ℕ
  window : ℕ
  buckets : Buckets
deriving Repr

/-- `InMemoryTokenBucket.__init__` (main.py lines 107–113): divides
`max_requests` and `burst` by `num_instances` with integer floor division
and starts with an empty per-key dict. -/
def InMemoryTokenBucket.init (max_requests burst window num_instances : ℕ) :
    InMemoryTokenBucket :=
  { max_requests := max_requests / num_instances
    burst := burst / num_instances
    window := window
    buckets := [] }

/-- `self.max_requests + self.burst`, the fallback bucket's capacity. -/
def InMemoryTokenBucket.capacity (b : InMemoryTokenBucket) : ℚ :=
  (b.max_requests : ℚ) + (b.burst : ℚ)

/-- `self.replenish_rate = self.max_requests / window` (main.py line 111),
computed from the already-divided `max_requests`. -/
def InMemoryTokenBucket.replenish_rate (b : InMemoryTokenBucket) : ℚ :=
  (b.max_requests : ℚ) / (b.window : ℚ)

/-- Pre-debit token count of `check_and_update` (main.py lines 116–118). -/
def InMemoryTokenBucket.newTokens (b : InMemoryTokenBucket) (key : String)
    (now : ℚ) : ℚ :=
  tokenBucketNew b.capacity b.replenish_rate b.buckets key now

/-- `InMemoryTokenBucket.check_and_update` (main.py lines 115–126): the same
replenish/debit computation as the Lua script, over the in-process dict and
the bucket's own (divided) parameters. -/
def InMemoryTokenBucket.check_and_update (b : InMemoryTokenBucket)
    (key : String) (now : ℚ) : Bool × InMemoryTokenBucket :=
  let r := tokenBucket b.capacity b.replenish_rate b.buckets key now
  (r.1, { b with buckets := r.2 })

/-- Modelled from the spec (§4.2 steps 2–6), for comparison with the source
embedding: one admission check described over the key's stored state alone.
Read `tokens`/`last_update` (defaulting to `max_requests + burst` / `now`),
compute `new_tokens = min(max_requests + burst,
tokens + elapsed * replenish_rate)`; if `new_tokens ≥ 1` debit one token and
persist `(new_tokens - 1, now)`, else leave the state untouched and deny. -/
def specBucketCheck (window max_requests burst : ℚ) (stored : Option (ℚ × ℚ))
    (now : ℚ) : Bool × Option (ℚ × ℚ) :=
  let replenish_rate := max_requests / window
  let tokens := (Option.map Prod.fst stored).getD (max_requests + burst)
  let last_update := (Option.map Prod.snd stored).getD now
  let elapsed := now - last_update
  let new_tokens := mathMin (max_requests + burst) (tokens + elapsed * replenish_rate)
  if 1 ≤ new_tokens then (true, some (new_tokens - 1, now))
  else (false, stored)

/-- Run a list of `(key, now)` admission checks of the shared core with fixed
capacity and replenish rate, returning the final store and the decisions. -/
def runChecks (cap rate : ℚ) (store : Buckets) :
    List (String × ℚ) → Buckets × List Bool
  | [] => (store, [])
  | (key, now) :: rest =>
    let r := tokenBucket cap rate store key now
    let r2 := runChecks cap rate r.2 rest
    (r2.1, r.1 :: r2.2)

/-- Run a list of `(key, now)` admission checks against the Lua script with
fixed policy parameters, returning the final store and the decisions. -/
def runScriptChecks (window max_requests burst : ℚ) (store : Buckets) :
    List (String × ℚ) → Buckets × List Bool
  | [] => (store, [])
  | (key, now) :: rest =>
    let r := tokenBucketScript store key now window max_requests burst
    let r2 := runScriptChecks window max_requests burst r.2 rest
    (r2.1, r.1 :: r2.2)

/-- Run a list of `(key, now)` admission checks against an in-memory fallback
bucket, returning the final bucket and the decisions. -/
def runBucketChecks (b : InMemoryTokenBucket) :
    List (String × ℚ) → InMemoryTokenBucket × List Bool
  | [] => (b, [])
  | (key, now) :: rest =>
    let r := b.check_and_update key now
    let r2 := runBucketChecks r.2 rest
    (r2.1, r.1 :: r2.2)

/-!
The `rate_limit` middleware (main.py lines 150–214), the startup probe
(lines 130–144) and the process-wide flags (`use_redis`, `fallback_buckets`)
are modelled as an explicit transition system.  A request carries the optional
`X-User-ID` header, the URL path, the clock value `now`, and — as an oracle
for the environment — whether the Redis round trip inside the `try` block
raises on this request.
-/

/-- One entry of `ENDPOINT_LIMITS`, and the defaults (main.py lines 34–51). -/
structure Limits where
  window : ℕ
  max_requests : ℕ
  burst : ℕ
deriving Repr

/-- The process configuration read from the environment at import time:
default limits, the `ENDPOINT_LIMITS` table, and `NUM_INSTANCES`. -/
structure Config where
  default_limits : Limits
  endpoint_limits : List (String × Limits)
  num_instances : ℕ
deriving Repr

/-- `ENDPOINT_LIMITS.get(path, defaults)` (main.py lines 158–162). -/
def resolveLimits (cfg : Config) (path : String) : Limits :=
  (alGet cfg.endpoint_limits path).getD cfg.default_limits

/-- Process-wide mutable state of one instance: the `use_redis` flag, the
modelled contents of the Redis store, and the `fallback_buckets` registry
(route path ↦ in-memory bucket). -/
structure ProcState where
  use_redis : Bool
  redis_store : Buckets
  fallback_buckets : List (String × InMemoryTokenBucket)
deriving Repr

/-- One inbound request, together with the environment oracle
`redis_fails`: whether the Redis call inside the middleware's `try` block
raises during this request. -/
structure RequestEvent where
  user_id : Option String
  path : String
  now : ℚ
  redis_fails : Bool
deriving Repr

/-- What the middleware hands back to the HTTP layer: either a rejection
response built by the middleware itself, or the downstream handler's
response (`call_next`). -/
inductive RLResponse where
  | rejected (status : ℕ) (detail : String)
  | handled
deriving Repr, DecidableEq

/-- Observable outcome of one middleware invocation.  `remote_attempted`
records whether the Redis path was entered (the `if use_redis` branch),
`fallback_used` whether `check_and_update` on an in-memory bucket decided
the request. -/
structure RLOutcome where
  allowed : Bool
  remote_attempted : Bool
  fallback_used : Bool
  response : RLResponse
deriving Repr

/-- The tail of the middleware (main.py lines 199–214): a deny produces the
429 `JSONResponse` whose body is `{"detail": "Rate limit exceeded for <path>"}`
without invoking `call_next`; an admit invokes the downstream handler. -/
def mkOutcome (allowed remote_attempted fallback_used : Bool) (path : String) :
    RLOutcome :=
  { allowed := allowed
    remote_attempted := remote_attempted
    fallback_used := fallback_used
    response :=
      if allowed then RLResponse.handled
      else RLResponse.rejected 429 ("Rate limit exceeded for " ++ path) }

/-- The fallback branch of the middleware (main.py lines 189–194): fetch the
route's bucket from `fallback_buckets`, creating it with the route's limits
and `NUM_INSTANCES` if absent, then run `check_and_update`. -/
def fallbackCheck (cfg : Config) (st : ProcState) (path key : String) (now : ℚ)
    (remote_attempted : Bool) : ProcState × RLOutcome :=
  let limits := resolveLimits cfg path
  let bucket := (alGet st.fallback_buckets path).getD
    (InMemoryTokenBucket.init limits.max_requests limits.burst limits.window
      cfg.num_instances)
  let r := bucket.check_and_update key now
  ({ st with fallback_buckets := alSet st.fallback_buckets path r.2 },
   mkOutcome r.1 remote_attempted true path)

/-- The `rate_limit` middleware (main.py lines 150–214) on one request.
In the Redis branch, a raising round trip (`ev.redis_fails`) sets
`use_redis := False` and falls through to the fallback branch for the same
request; a successful round trip decides via the Lua script.  When
`use_redis` is already false the Redis branch is never entered.  (Each branch
assigns `allowed`, so the defensive `allowed is None` deny of lines 199–201
is unreachable and the outcome's `allowed` is always the branch's verdict.) -/
def rateLimitStep (cfg : Config) (st : ProcState) (ev : RequestEvent) :
    ProcState × RLOutcome :=
  let user_id := ev.user_id.getD "default"
  let path := ev.path
  let limits := resolveLimits cfg path
  let key := "rate:" ++ user_id ++ ":" ++ path
  if st.use_redis then
    if ev.redis_fails then
      fallbackCheck cfg { st with use_redis := false } path key ev.now true
    else
      let r := tokenBucketScript st.redis_store key ev.now limits.window
        limits.max_requests limits.burst
      ({ st with redis_store := r.2 }, mkOutcome r.1 true false path)
  else
    fallbackCheck cfg st path key ev.now false

/-- The startup probe (main.py lines 130–144): `use_redis` is true iff the
initial `ping`/`script_load` round trip does not raise. -/
def startupState (ping_fails : Bool) : ProcState :=
  { use_redis := !ping_fails
    redis_store := []
    fallback_buckets := [] }

/-- Run a finite trace of requests through the middleware. -/
def runSteps (cfg : Config) (st : ProcState) :
    List RequestEvent → ProcState × List RLOutcome
  | [] => (st, [])
  | ev :: evs =>
    let r := rateLimitStep cfg st ev
    let r2 := runSteps cfg r.1 evs
    (r2.1, r.2 :: r2.2)

/-- The `BucketState` range invariant of the spec (§3): every stored token
count lies between 0 and the capacity. -/
def InRange (cap : ℚ) (store : Buckets) : Prop :=
  ∀ k t lu, alGet store k = some (t, lu) → 0 ≤ t ∧ t ≤ cap

/-! ### Association-list lemmas -/

theorem alGet_alSet_self {α : Type} (s : List (String × α)) (k : String) (v : α) :
    alGet (alSet s k v) k = some v := by
  induction s with
  | nil => simp [alGet, alSet]
  | cons hd tl ih =>
    obtain ⟨k₀, w⟩ := hd
    by_cases h : k₀ = k
    · simp [alGet, alSet, h]
    · simp [alGet, alSet, h, ih]

theorem alGet_alSet_ne {α : Type} (s : List (String × α)) (k k' : String) (v : α)
    (h : k' ≠ k) : alGet (alSet s k v) k' = alGet s k' := by
  induction s with
  | nil => simp [alGet, alSet, Ne.symm h]
  | cons hd tl ih =>
    obtain ⟨k₀, w⟩ := hd
    by_cases h₀ : k₀ = k
    · subst h₀; simp [alGet, alSet, Ne.symm h]
    · simp [alGet, alSet, h₀, ih]

theorem alSet_alGet_self {α : Type} (s : List (String × α)) (k : String) (v : α)
    (h : alGet s k = some v) : alSet s k v = s := by
  induction s with
  | nil => simp [alGet] at h
  | cons hd tl ih =>
    obtain ⟨k₀, w⟩ := hd
    by_cases h₀ : k₀ = k
    · subst h₀
      simp [alGet] at h
      simp [alSet, h]
    · simp [alGet, h₀] at h
      simp [alSet, h₀, ih h]

theorem alSet_alSet {α : Type} (s : List (String × α)) (k : String) (v v' : α) :
    alSet (alSet s k v) k v' = alSet s k v' := by
  induction s with
  | nil => simp [alSet]
  | cons hd tl ih =>
    obtain ⟨k₀, w⟩ := hd
    by_cases h₀ : k₀ = k
    · simp [alSet, h₀]
    · simp [alSet, h₀, ih]

/-! ### `mathMin` lemmas -/

theorem mathMin_le_left (a b : ℚ) : mathMin a b ≤ a := by
  unfold mathMin; split
  · exact le_refl a
  · exact le_of_not_le (by assumption)

theorem mathMin_le_right (a b : ℚ) : mathMin a b ≤ b := by
  unfold mathMin; split
  · assumption
  · exact le_refl b

theorem le_mathMin {a b c : ℚ} (ha : c ≤ a) (hb : c ≤ b) : c ≤ mathMin a b := by
  unfold mathMin; split
  · exact ha
  · exact hb

theorem mathMin_eq_right {a b : ℚ} (h : b ≤ a) : mathMin a b = b := by
  unfold mathMin; split
  · exact le_antisymm (by assumption) h
  · rfl

/-! ### Single-check lemmas about the shared core -/

theorem tokenBucketNew_none (cap rate : ℚ) (store : Buckets) (key : String)
    (now : ℚ) (h : alGet store key = none) :
    tokenBucketNew cap rate store key now = cap := by
  simp [tokenBucketNew, h, mathMin]

theorem tokenBucketNew_some (cap rate : ℚ) (store : Buckets) (key : String)
    (now t lu : ℚ) (h : alGet store key = some (t, lu)) :
    tokenBucketNew cap rate store key now = mathMin cap (t + (now - lu) * rate) := by
  simp [tokenBucketNew, h]

theorem tokenBucketNew_same_now (cap rate : ℚ) {store : Buckets} {key : String}
    {now t : ℚ} (h : alGet store key = some (t, now)) (ht : t ≤ cap) :
    tokenBucketNew cap rate store key now = t := by
  rw [tokenBucketNew_some cap rate store key now t now h]
  simp [mathMin_eq_right, ht]

theorem tokenBucketNew_le_cap (cap rate : ℚ) (store : Buckets) (key : String)
    (now : ℚ) : tokenBucketNew cap rate store key now ≤ cap := by
  simp only [tokenBucketNew]
  exact mathMin_le_left _ _

theorem tokenBucket_allow (cap rate : ℚ) (store : Buckets) (key : String)
    (now : ℚ) (h : 1 ≤ tokenBucketNew cap rate store key now) :
    tokenBucket cap rate store key now
      = (true, alSet store key (tokenBucketNew cap rate store key now - 1, now)) := by
  simp [tokenBucket, h]

theorem tokenBucket_deny (cap rate : ℚ) (store : Buckets) (key : String)
    (now : ℚ) (h : ¬ 1 ≤ tokenBucketNew cap rate store key now) :
    tokenBucket cap rate store key now = (false, store) := by
  simp [tokenBucket, h]

/-! ### Invariant preservation and run lemmas -/

theorem InRange_tokenBucket (cap rate : ℚ) (store : Buckets) (key : String)
    (now : ℚ) (h : InRange cap store) :
    InRange cap (tokenBucket cap rate store key now).2 := by
  by_cases hc : 1 ≤ tokenBucketNew cap rate store key now
  · rw [tokenBucket_allow cap rate store key now hc]
    intro k t lu hget
    by_cases hk : k = key
    · subst hk
      rw [alGet_alSet_self] at hget
      rw [Option.some_inj, Prod.mk.injEq] at hget
      obtain ⟨h1, h2⟩ := hget
      subst h1
      have hcap := tokenBucketNew_le_cap cap rate store k now
      exact ⟨by linarith, by linarith⟩
    · rw [alGet_alSet_ne store key k _ hk] at hget
      exact h k t lu hget
  · rw [tokenBucket_deny cap rate store key now hc]
    exact h

theorem InRange_runChecks (cap rate : ℚ) (l : List (String × ℚ)) :
    ∀ store : Buckets, InRange cap store → InRange cap (runChecks cap rate store l).1 := by
  induction l with
  | nil => intro store h; simpa [runChecks] using h
  | cons hd tl ih =>
    intro store h
    obtain ⟨key, now⟩ := hd
    simp only [runChecks]
    exact ih _ (InRange_tokenBucket cap rate store key now h)

theorem runScriptChecks_eq_runChecks (w m b : ℚ) (l : List (String × ℚ)) :
    ∀ store : Buckets,
      runScriptChecks w m b store l = runChecks (m + b) (m / w) store l := by
  induction l with
  | nil => intro store; rfl
  | cons hd tl ih =>
    intro store
    obtain ⟨key, now⟩ := hd
    simp only [runScriptChecks, runChecks, tokenBucketScript]
    rw [ih]

theorem runBucketChecks_eq_runChecks (l : List (String × ℚ)) :
    ∀ B : InMemoryTokenBucket,
      runBucketChecks B l
        = ({ B with
              buckets := (runChecks B.capacity B.replenish_rate B.buckets l).1 },
           (runChecks B.capacity B.replenish_rate B.buckets l).2) := by
  induction l with
  | nil => intro B; rfl
  | cons hd tl ih =>
    intro B
    obtain ⟨key, now⟩ := hd
    simp only [runBucketChecks, runChecks, InMemoryTokenBucket.check_and_update]
    rw [ih]
    rfl

theorem runChecks_append (cap rate : ℚ) (l₁ l₂ : List (String × ℚ)) :
    ∀ store : Buckets,
      runChecks cap rate store (l₁ ++ l₂)
        = ((runChecks cap rate (runChecks cap rate store l₁).1 l₂).1,
           (runChecks cap rate store l₁).2
             ++ (runChecks cap rate (runChecks cap rate store l₁).1 l₂).2) := by
  induction l₁ with
  | nil => intro store; simp [runChecks]
  | cons hd tl ih =>
    intro store
    obtain ⟨key, now⟩ := hd
    simp only [List.cons_append, runChecks, List.append_eq]
    rw [ih]

theorem runChecks_replicate_same_now (cap rate : ℚ) (key : String) (now : ℚ) :
    ∀ (j : ℕ) (t : ℚ) (store : Buckets),
      alGet store key = some (t, now) → t ≤ cap → (j : ℚ) ≤ t →
      runChecks cap rate store (List.replicate j (key, now))
        = (alSet store key (t - j, now), List.replicate j true) := by
  intro j
  induction j with
  | zero =>
    intro t store hget ht hj
    simp only [List.replicate, runChecks, Nat.cast_zero, sub_zero]
    rw [alSet_alGet_self store key _ hget]
  | succ j ih =>
    intro t store hget ht hj
    have hj' : ((j:ℚ) + 1) ≤ t := by push_cast at hj; linarith
    have h1 : (1:ℚ) ≤ t := by
      have := Nat.cast_nonneg (α := ℚ) j
      linarith
    have hnt : tokenBucketNew cap rate store key now = t :=
      tokenBucketNew_same_now cap rate hget ht
    simp only [List.replicate_succ, runChecks]
    rw [tokenBucket_allow cap rate store key now (by rw [hnt]; exact h1), hnt]
    dsimp only
    rw [ih (t - 1) (alSet store key (t - 1, now)) (alGet_alSet_self _ _ _)
      (by linarith) (by linarith)]
    rw [alSet_alSet]
    have harith : t - 1 - (j:ℚ) = t - ((j + 1 : ℕ) : ℚ) := by push_cast; ring
    rw [harith]

theorem runChecks_fresh_exhaust (rate : ℚ) (n : ℕ) (key : String) (now : ℚ)
    (hn : 1 ≤ n) :
    runChecks (n : ℚ) rate [] (List.replicate (n + 1) (key, now))
      = ([(key, (0, now))], List.replicate n true ++ [false]) := by
  have hn1 : n - 1 + 1 = n := Nat.sub_add_cancel hn
  have hcast : ((n - 1 : ℕ) : ℚ) = (n : ℚ) - 1 := by
    rw [Nat.cast_sub hn, Nat.cast_one]
  have h1n : (1:ℚ) ≤ (n:ℚ) := by exact_mod_cast hn
  have hfresh : tokenBucketNew (n : ℚ) rate [] key now = (n : ℚ) :=
    tokenBucketNew_none _ _ _ _ _ rfl
  simp only [List.replicate_succ, runChecks]
  rw [tokenBucket_allow _ _ _ _ _ (by rw [hfresh]; exact h1n), hfresh]
  dsimp only
  have hsplit : List.replicate n (key, now)
      = List.replicate (n - 1) (key, now) ++ [(key, now)] := by
    conv_lhs => rw [← hn1]
    rw [List.replicate_succ']
  rw [hsplit, runChecks_append,
    runChecks_replicate_same_now (n:ℚ) rate key now (n - 1) ((n:ℚ) - 1)
      (alSet ([] : Buckets) key ((n:ℚ) - 1, now)) (alGet_alSet_self _ _ _)
      (by linarith) (by rw [hcast])]
  dsimp only
  rw [alSet_alSet]
  have hval : (n:ℚ) - 1 - ((n - 1 : ℕ) : ℚ) = 0 := by rw [hcast]; ring
  rw [hval]
  have hzero : tokenBucketNew (n:ℚ) rate (alSet ([] : Buckets) key (0, now)) key now
      = 0 :=
    tokenBucketNew_same_now _ rate (alGet_alSet_self _ _ _) (by linarith)
  simp only [runChecks]
  rw [tokenBucket_deny _ _ _ _ _ (by rw [hzero]; norm_num)]
  dsimp only
  have hlist : true :: (List.replicate (n - 1) true ++ [false])
      = List.replicate n true ++ [false] := by
    rw [← List.cons_append, ← List.replicate_succ, hn1]
  rw [hlist]
  rfl

theorem runChecks_empty_zero_cap (rate : ℚ) (l : List (String × ℚ)) :
    runChecks 0 rate [] l = ([], List.replicate l.length false) := by
  induction l with
  | nil => rfl
  | cons hd tl ih =>
    obtain ⟨key, now⟩ := hd
    have hnt : tokenBucketNew 0 rate [] key now = 0 :=
      tokenBucketNew_none 0 rate [] key now rfl
    simp only [runChecks]
    rw [tokenBucket_deny 0 rate [] key now (by rw [hnt]; norm_num)]
    dsimp only
    rw [ih]
    simp [List.replicate_succ]

theorem tokenBucket_false_store (cap rate : ℚ) (store : Buckets) (key : String)
    (now : ℚ) (h : (tokenBucket cap rate store key now).1 = false) :
    (tokenBucket cap rate store key now).2 = store := by
  by_cases hc : 1 ≤ tokenBucketNew cap rate store key now
  · rw [tokenBucket_allow cap rate store key now hc] at h
    simp at h
  · rw [tokenBucket_deny cap rate store key now hc]

theorem specBucketCheck_eq_ite (window max_requests burst : ℚ) (store : Buckets)
    (key : String) (now : ℚ) :
    specBucketCheck window max_requests burst (alGet store key) now
      = if 1 ≤ tokenBucketNew (max_requests + burst) (max_requests / window) store key now
        then (true,
          some (tokenBucketNew (max_requests + burst) (max_requests / window) store key now - 1,
            now))
        else (false, alGet store key) := rfl

theorem tokenBucket_agrees_specCheck (window max_requests burst : ℚ)
    (store : Buckets) (key : String) (now : ℚ) :
    (tokenBucket (max_requests + burst) (max_requests / window) store key now).1
      = (specBucketCheck window max_requests burst (alGet store key) now).1
    ∧ alGet (tokenBucket (max_requests + burst) (max_requests / window) store key now).2 key
      = (specBucketCheck window max_requests burst (alGet store key) now).2 := by
  rw [specBucketCheck_eq_ite]
  by_cases h : 1 ≤ tokenBucketNew (max_requests + burst) (max_requests / window) store key now
  · rw [tokenBucket_allow _ _ _ _ _ h, if_pos h]
    exact ⟨rfl, alGet_alSet_self _ _ _⟩
  · rw [tokenBucket_deny _ _ _ _ _ h, if_neg h]
    exact ⟨rfl, rfl⟩

/-! ### Middleware lemmas -/

theorem rateLimitStep_response (cfg : Config) (st : ProcState) (ev : RequestEvent) :
    (rateLimitStep cfg st ev).2.response
      = if (rateLimitStep cfg st ev).2.allowed then RLResponse.handled
        else RLResponse.rejected 429 ("Rate limit exceeded for " ++ ev.path) := by
  simp only [rateLimitStep, fallbackCheck, mkOutcome]
  split
  · split <;> rfl
  · rfl

theorem rateLimitStep_fallback (cfg : Config) (st : ProcState) (ev : RequestEvent)
    (h : st.use_redis = false) :
    (rateLimitStep cfg st ev).1.use_redis = false
    ∧ (rateLimitStep cfg st ev).2.remote_attempted = false
    ∧ (rateLimitStep cfg st ev).2.fallback_used = true := by
  simp [rateLimitStep, fallbackCheck, mkOutcome, h]

theorem rateLimitStep_trip (cfg : Config) (st : ProcState) (ev : RequestEvent)
    (h : st.use_redis = true) (hf : ev.redis_fails = true) :
    (rateLimitStep cfg st ev).1.use_redis = false
    ∧ (rateLimitStep cfg st ev).2.fallback_used = true := by
  simp [rateLimitStep, fallbackCheck, mkOutcome, h, hf]

theorem runSteps_fallback (cfg : Config) (evs : List RequestEvent) :
    ∀ st : ProcState, st.use_redis = false →
      (runSteps cfg st evs).1.use_redis = false
      ∧ ∀ o ∈ (runSteps cfg st evs).2,
          o.remote_attempted = false ∧ o.fallback_used = true := by
  induction evs with
  | nil =>
    intro st h
    exact ⟨h, by intro o ho; simp [runSteps] at ho⟩
  | cons ev evs ih =>
    intro st h
    obtain ⟨h1, h2, h3⟩ := rateLimitStep_fallback cfg st ev h
    simp only [runSteps]
    obtain ⟨ih1, ih2⟩ := ih _ h1
    refine ⟨ih1, ?_⟩
    intro o ho
    rcases List.mem_cons.mp ho with rfl | ho'
    · exact ⟨h2, h3⟩
    · exact ih2 o ho'

/-! ### Claim theorems -/

/-- Claim C1: every admission check — the remote Lua script and the in-memory
fallback alike — given the stored `(tokens, last_update)` state for the key
(defaulting to `tokens = max_requests + burst`, `last_update = now` when the
key is absent), computes
`new_tokens = min(max_requests + burst, tokens + (now - last_update) * (max_requests / window))`,
admits iff `new_tokens ≥ 1`, and exactly on admit stores `(new_tokens - 1, now)`
as the key's new state: both implementations agree with the spec-described
check `specBucketCheck`, on the verdict and on the key's stored state (the
fallback instantiated at its own instance-divided parameters). -/
theorem check_agrees_with_spec (store : Buckets) (key : String)
    (now window max_requests burst : ℚ) (B : InMemoryTokenBucket) :
    ((tokenBucketScript store key now window max_requests burst).1
        = (specBucketCheck window max_requests burst (alGet store key) now).1
      ∧ alGet (tokenBucketScript store key now window max_requests burst).2 key
        = (specBucketCheck window max_requests burst (alGet store key) now).2)
    ∧ ((B.check_and_update key now).1
        = (specBucketCheck (B.window : ℚ) (B.max_requests : ℚ) (B.burst : ℚ)
            (alGet B.buckets key) now).1
      ∧ alGet (B.check_and_update key now).2.buckets key
        = (specBucketCheck (B.window : ℚ) (B.max_requests : ℚ) (B.burst : ℚ)
            (alGet B.buckets key) now).2) := by
  refine ⟨tokenBucket_agrees_specCheck window max_requests burst store key now, ?_⟩
  exact tokenBucket_agrees_specCheck (B.window : ℚ) (B.max_requests : ℚ)
    (B.burst : ℚ) B.buckets key now

/-- Claim C3: for every policy and every key, after any finite sequence of
admission checks — with arbitrary, possibly non-monotonic, `now` values —
every stored token count satisfies `0 ≤ tokens ≤ max_requests + burst`: for
the Lua script starting from an empty store, and for any in-memory fallback
bucket whose store already satisfies the invariant (in particular a fresh
one, whose store is empty). -/
theorem tokens_stay_in_range :
    (∀ (window max_requests burst : ℚ) (checks : List (String × ℚ))
        (k : String) (t lu : ℚ),
      alGet (runScriptChecks window max_requests burst [] checks).1 k
          = some (t, lu) →
      0 ≤ t ∧ t ≤ max_requests + burst)
    ∧ (∀ (B : InMemoryTokenBucket) (checks : List (String × ℚ))
        (k : String) (t lu : ℚ),
      InRange B.capacity B.buckets →
      alGet (runBucketChecks B checks).1.buckets k = some (t, lu) →
      0 ≤ t ∧ t ≤ B.capacity) := by
  constructor
  · intro window max_requests burst checks k t lu hget
    rw [runScriptChecks_eq_runChecks] at hget
    refine InRange_runChecks (max_requests + burst) (max_requests / window)
      checks [] ?_ k t lu hget
    intro k' t' lu' h
    simp [alGet] at h
  · intro B checks k t lu hinv hget
    rw [runBucketChecks_eq_runChecks] at hget
    exact InRange_runChecks B.capacity B.replenish_rate checks B.buckets hinv
      k t lu hget

/-- Claim C3 witness: one concrete admitted check on each implementation,
whose stored token count the theorem bounds. -/
theorem tokens_stay_in_range_witness :
    (0 ≤ (1:ℚ) ∧ (1:ℚ) ≤ 2 + 0)
    ∧ (0 ≤ (1:ℚ) ∧ (1:ℚ) ≤ (InMemoryTokenBucket.init 2 0 60 1).capacity) := by
  constructor
  · exact tokens_stay_in_range.1 60 2 0 [("k", 0)] "k" 1 0
      (by norm_num [runScriptChecks, tokenBucketScript, tokenBucket,
        tokenBucketNew, mathMin, alGet, alSet])
  · refine tokens_stay_in_range.2 (InMemoryTokenBucket.init 2 0 60 1)
      [("k", 0)] "k" 1 0 ?_ ?_
    · intro k t lu h
      simp [InMemoryTokenBucket.init, alGet] at h
    · norm_num [runBucketChecks, InMemoryTokenBucket.init,
        InMemoryTokenBucket.check_and_update, InMemoryTokenBucket.capacity,
        InMemoryTokenBucket.replenish_rate, tokenBucket, tokenBucketNew,
        mathMin, alGet, alSet]

/-- Claim C6: the in-memory fallback bucket is constructed with
`max_requests / num_instances` and `burst / num_instances` using integer
floor division; for `num_instances = 2`, `max_requests = 100`, `burst = 20`
its effective capacity is `50 + 10 = 60`. -/
theorem fallback_capacity_divided :
    (∀ max_requests burst window num_instances : ℕ,
      (InMemoryTokenBucket.init max_requests burst window num_instances).max_requests
          = max_requests / num_instances
        ∧ (InMemoryTokenBucket.init max_requests burst window num_instances).burst
          = burst / num_instances)
    ∧ (InMemoryTokenBucket.init 100 20 60 2).max_requests = 50
    ∧ (InMemoryTokenBucket.init 100 20 60 2).burst = 10
    ∧ (InMemoryTokenBucket.init 100 20 60 2).capacity = 60 := by
  refine ⟨fun mr bu wd ni => ⟨rfl, rfl⟩, rfl, rfl, ?_⟩
  norm_num [InMemoryTokenBucket.init, InMemoryTokenBucket.capacity]

/-- Claim C7: when an admission check denies, the bucket state for the key is
left completely unchanged — the Lua script returns the store exactly as it
was and `check_and_update` returns the bucket exactly as it was; state is
mutated only on admit. -/
theorem deny_leaves_state_unchanged (store : Buckets) (key : String)
    (now window max_requests burst : ℚ) (B : InMemoryTokenBucket) :
    ((tokenBucketScript store key now window max_requests burst).1 = false →
      (tokenBucketScript store key now window max_requests burst).2 = store)
    ∧ ((B.check_and_update key now).1 = false →
      (B.check_and_update key now).2 = B) := by
  constructor
  · intro h
    exact tokenBucket_false_store (max_requests + burst) (max_requests / window)
      store key now h
  · intro h
    have hb : (tokenBucket B.capacity B.replenish_rate B.buckets key now).2
        = B.buckets :=
      tokenBucket_false_store B.capacity B.replenish_rate B.buckets key now h
    show ({ B with
      buckets := (tokenBucket B.capacity B.replenish_rate B.buckets key now).2 }
        : InMemoryTokenBucket) = B
    rw [hb]

/-- Claim C7 witness: one concrete denied check on each implementation, whose
state the theorem shows untouched. -/
theorem deny_leaves_state_unchanged_witness :
    (tokenBucketScript [] "k" 0 60 0 0).2 = []
    ∧ ((InMemoryTokenBucket.init 1 0 60 2).check_and_update "k" 0).2
        = InMemoryTokenBucket.init 1 0 60 2 := by
  constructor
  · exact (deny_leaves_state_unchanged [] "k" 0 60 0 0
      (InMemoryTokenBucket.init 1 0 60 2)).1
      (by norm_num [tokenBucketScript, tokenBucket, tokenBucketNew, mathMin, alGet])
  · exact (deny_leaves_state_unchanged [] "k" 0 60 0 0
      (InMemoryTokenBucket.init 1 0 60 2)).2
      (by norm_num [InMemoryTokenBucket.init, InMemoryTokenBucket.check_and_update,
        InMemoryTokenBucket.capacity, InMemoryTokenBucket.replenish_rate,
        tokenBucket, tokenBucketNew, mathMin, alGet])

/-- Claim C5: a freshly created bucket with integer capacity
`max_requests + burst ≥ 1` admits exactly the first `max_requests + burst`
checks made at one instant (zero elapsed time) and denies the next one — for
the Lua script on a previously absent key and for a fresh in-memory fallback
bucket, whose capacity is the instance-divided
`max_requests / num_instances + burst / num_instances`. -/
theorem fresh_bucket_admits_capacity_then_denies
    (window : ℚ) (max_requests burst mr bu wd ni : ℕ) (key : String) (now : ℚ)
    (h1 : 1 ≤ max_requests + burst) (h2 : 1 ≤ mr / ni + bu / ni) :
    (runScriptChecks window (max_requests : ℚ) (burst : ℚ) []
        (List.replicate (max_requests + burst + 1) (key, now))).2
      = List.replicate (max_requests + burst) true ++ [false]
    ∧ (runBucketChecks (InMemoryTokenBucket.init mr bu wd ni)
        (List.replicate (mr / ni + bu / ni + 1) (key, now))).2
      = List.replicate (mr / ni + bu / ni) true ++ [false] := by
  constructor
  · rw [runScriptChecks_eq_runChecks]
    have hc : (max_requests : ℚ) + (burst : ℚ)
        = ((max_requests + burst : ℕ) : ℚ) := by push_cast; ring
    rw [hc, runChecks_fresh_exhaust _ _ _ _ h1]
  · rw [runBucketChecks_eq_runChecks]
    have hcap : (InMemoryTokenBucket.init mr bu wd ni).capacity
        = ((mr / ni + bu / ni : ℕ) : ℚ) := by
      simp only [InMemoryTokenBucket.init, InMemoryTokenBucket.capacity]
      push_cast; ring
    have hbk : (InMemoryTokenBucket.init mr bu wd ni).buckets = [] := rfl
    dsimp only
    rw [hcap, hbk, runChecks_fresh_exhaust _ _ _ _ h2]

/-- Claim C5 witness: capacity 2 on both implementations — three immediate
checks give admit, admit, deny. -/
theorem fresh_bucket_admits_capacity_then_denies_witness :
    (runScriptChecks 60 ((2:ℕ) : ℚ) ((0:ℕ) : ℚ) []
        (List.replicate (2 + 0 + 1) ("k", 0))).2
      = List.replicate (2 + 0) true ++ [false]
    ∧ (runBucketChecks (InMemoryTokenBucket.init 2 0 60 1)
        (List.replicate (2 / 1 + 0 / 1 + 1) ("k", 0))).2
      = List.replicate (2 / 1 + 0 / 1) true ++ [false] :=
  fresh_bucket_admits_capacity_then_denies 60 2 0 2 0 60 1 "k" 0
    (by decide) (by decide)

/-- Claim C10: when `max_requests < num_instances` and `burst < num_instances`,
the fallback bucket's integer-divided capacity is 0, so in fallback mode
`check_and_update` denies every request for every key at every time and the
per-key map is never written. -/
theorem zero_capacity_fallback_denies_everything
    (max_requests burst window num_instances : ℕ)
    (hm : max_requests < num_instances) (hb : burst < num_instances)
    (checks : List (String × ℚ)) :
    (InMemoryTokenBucket.init max_requests burst window num_instances).capacity = 0
    ∧ (runBucketChecks
        (InMemoryTokenBucket.init max_requests burst window num_instances)
        checks).1.buckets = []
    ∧ (runBucketChecks
        (InMemoryTokenBucket.init max_requests burst window num_instances)
        checks).2 = List.replicate checks.length false := by
  have hm0 : max_requests / num_instances = 0 := Nat.div_eq_of_lt hm
  have hb0 : burst / num_instances = 0 := Nat.div_eq_of_lt hb
  have hcap : (InMemoryTokenBucket.init max_requests burst window
      num_instances).capacity = 0 := by
    simp [InMemoryTokenBucket.init, InMemoryTokenBucket.capacity, hm0, hb0]
  have hbk : (InMemoryTokenBucket.init max_requests burst window
      num_instances).buckets = [] := rfl
  refine ⟨hcap, ?_, ?_⟩
  · rw [runBucketChecks_eq_runChecks]
    dsimp only
    rw [hcap, hbk, runChecks_empty_zero_cap]
  · rw [runBucketChecks_eq_runChecks]
    dsimp only
    rw [hcap, hbk, runChecks_empty_zero_cap]

/-- Claim C10 witness: `max_requests = 1`, `burst = 0`, `num_instances = 2` —
capacity 0, the single check denied, the map untouched. -/
theorem zero_capacity_fallback_denies_everything_witness :
    (InMemoryTokenBucket.init 1 0 60 2).capacity = 0
    ∧ (runBucketChecks (InMemoryTokenBucket.init 1 0 60 2)
        [("rate:default:/products", 3)]).1.buckets = []
    ∧ (runBucketChecks (InMemoryTokenBucket.init 1 0 60 2)
        [("rate:default:/products", 3)]).2
      = List.replicate [(("rate:default:/products" : String), (3:ℚ))].length false :=
  zero_capacity_fallback_denies_everything 1 0 60 2 (by decide) (by decide)
    [("rate:default:/products", 3)]

/-- Claim C4 counterexample: with `window = 1`, `max_requests = 1`,
`burst = 4`, stored state `(tokens = 5, last_update = 10)` and a skewed clock
`now = 5`, the script computes `new_tokens = 0`: the negative elapsed time was
not clamped to 0 — replenishment subtracted tokens (5 → 0) and the check
denies despite a full stored balance (a clamped check would have computed 5
and admitted). -/
theorem clamp_claim_counterexample :
    scriptNewTokens [("k", (5, 10))] "k" 5 1 1 4 = 0
    ∧ scriptNewTokens [("k", (5, 10))] "k" 5 1 1 4 < 5
    ∧ (tokenBucketScript [("k", (5, 10))] "k" 5 1 1 4).1 = false := by
  norm_num [scriptNewTokens, tokenBucketScript, tokenBucket, tokenBucketNew,
    mathMin, alGet]

/-- Claim C4 (amended): neither implementation clamps the elapsed time: both
compute `new_tokens = min(cap, tokens + (now - last_update) * rate)` from the
raw difference `now - last_update`, so when clock skew makes `now` earlier
than `last_update` and the replenish rate is positive, replenishment strictly
subtracts tokens (whenever the unclamped sum stays below capacity). -/
theorem elapsed_not_clamped (window max_requests burst t lu now : ℚ)
    (store : Buckets) (key : String) (B : InMemoryTokenBucket)
    (h : alGet store key = some (t, lu))
    (hB : alGet B.buckets key = some (t, lu)) :
    (scriptNewTokens store key now window max_requests burst
        = mathMin (max_requests + burst)
            (t + (now - lu) * (max_requests / window))
      ∧ (now < lu → 0 < max_requests / window →
          t + (now - lu) * (max_requests / window) ≤ max_requests + burst →
          scriptNewTokens store key now window max_requests burst < t))
    ∧ (B.newTokens key now
        = mathMin B.capacity (t + (now - lu) * B.replenish_rate)
      ∧ (now < lu → 0 < B.replenish_rate →
          t + (now - lu) * B.replenish_rate ≤ B.capacity →
          B.newTokens key now < t)) := by
  have e1 : scriptNewTokens store key now window max_requests burst
      = mathMin (max_requests + burst)
          (t + (now - lu) * (max_requests / window)) :=
    tokenBucketNew_some _ _ store key now t lu h
  have e2 : B.newTokens key now
      = mathMin B.capacity (t + (now - lu) * B.replenish_rate) :=
    tokenBucketNew_some _ _ B.buckets key now t lu hB
  refine ⟨⟨e1, ?_⟩, ⟨e2, ?_⟩⟩
  · intro hlt hrate hle
    rw [e1, mathMin_eq_right hle]
    have : (now - lu) * (max_requests / window) < 0 :=
      mul_neg_of_neg_of_pos (by linarith) hrate
    linarith
  · intro hlt hrate hle
    rw [e2, mathMin_eq_right hle]
    have : (now - lu) * B.replenish_rate < 0 :=
      mul_neg_of_neg_of_pos (by linarith) hrate
    linarith

/-- Claim C4 (amended) witness: the concrete skewed-clock scenario of the
counterexample, on both implementations. -/
theorem elapsed_not_clamped_witness :
    scriptNewTokens [("k", (5, 10))] "k" 5 1 1 4 < 5
    ∧ (InMemoryTokenBucket.mk 1 4 1 [("k", (5, 10))]).newTokens "k" 5 < 5 := by
  have h := elapsed_not_clamped 1 1 4 5 10 5 [("k", (5, 10))] "k"
    (InMemoryTokenBucket.mk 1 4 1 [("k", (5, 10))])
    (by norm_num [alGet]) (by norm_num [alGet])
  refine ⟨h.1.2 (by norm_num) (by norm_num) ?_, h.2.2 (by norm_num) ?_ ?_⟩
  · norm_num
  · norm_num [InMemoryTokenBucket.replenish_rate]
  · norm_num [InMemoryTokenBucket.replenish_rate, InMemoryTokenBucket.capacity]

/-- Claim C8: a bucket depleted to 0 stored tokens at time `t`, when next
checked a full `window` later, has at least `max_requests` tokens available
before the debit: for the Lua script both when the key survived with stored
state `(0, t)` and when it expired (absent key, recreated at full capacity),
and likewise for the in-memory fallback bucket. -/
theorem depleted_bucket_replenishes (window max_requests burst t now' : ℚ)
    (store store' : Buckets) (key : String) (B : InMemoryTokenBucket)
    (hw : 0 < window) (hb : 0 ≤ burst)
    (h : alGet store key = some (0, t))
    (h' : alGet store' key = none)
    (hBw : 0 < B.window)
    (hB : alGet B.buckets key = some (0, t)) :
    max_requests ≤ scriptNewTokens store key (t + window) window max_requests burst
    ∧ max_requests ≤ scriptNewTokens store' key now' window max_requests burst
    ∧ (B.max_requests : ℚ) ≤ B.newTokens key (t + (B.window : ℚ)) := by
  refine ⟨?_, ?_, ?_⟩
  · rw [scriptNewTokens, tokenBucketNew_some _ _ store key _ 0 t h]
    have harith : (0:ℚ) + (t + window - t) * (max_requests / window)
        = max_requests := by
      field_simp
    rw [harith]
    exact le_mathMin (by linarith) (le_refl _)
  · rw [scriptNewTokens, tokenBucketNew_none _ _ store' key now' h']
    linarith
  · rw [InMemoryTokenBucket.newTokens,
      tokenBucketNew_some _ _ B.buckets key _ 0 t hB]
    have hw' : (0:ℚ) < (B.window : ℚ) := by exact_mod_cast hBw
    have harith : (0:ℚ) + (t + (B.window : ℚ) - t) * B.replenish_rate
        = (B.max_requests : ℚ) := by
      rw [InMemoryTokenBucket.replenish_rate]
      field_simp
    rw [harith]
    refine le_mathMin ?_ (le_refl _)
    rw [InMemoryTokenBucket.capacity]
    have : (0:ℚ) ≤ (B.burst : ℚ) := Nat.cast_nonneg _
    linarith

/-- Claim C8 witness: policy `window = 60`, `max_requests = 100`,
`burst = 20`; a bucket depleted at time 0 and rechecked at time 60, in all
three situations. -/
theorem depleted_bucket_replenishes_witness :
    (100:ℚ) ≤ scriptNewTokens [("k", (0, 0))] "k" ((0:ℚ) + 60) 60 100 20
    ∧ (100:ℚ) ≤ scriptNewTokens [] "k" 0 60 100 20
    ∧ ((InMemoryTokenBucket.mk 100 20 60 [("k", (0, 0))]).max_requests : ℚ)
        ≤ (InMemoryTokenBucket.mk 100 20 60 [("k", (0, 0))]).newTokens "k"
            ((0:ℚ) + ((InMemoryTokenBucket.mk 100 20 60 [("k", (0, 0))]).window : ℚ)) :=
  depleted_bucket_replenishes 60 100 20 0 0 [("k", (0, 0))] [] "k"
    (InMemoryTokenBucket.mk 100 20 60 [("k", (0, 0))])
    (by norm_num) (by norm_num) (by norm_num [alGet]) rfl (by decide)
    (by norm_num [alGet])

/-- Claim C2: the switch to fallback is sticky for the rest of the process
lifetime: a failed startup probe starts the process with `use_redis = false`;
whenever a remote bucket-check call fails the process flips `use_redis` to
false and decides that same request by the fallback; and from any state with
`use_redis = false`, every request of every subsequent trace is decided by
the in-memory fallback without the remote path ever being attempted, ending
with `use_redis` still false — no transition back to the remote-active state
exists. -/
theorem fallback_switch_is_sticky (cfg : Config) (st : ProcState)
    (ev : RequestEvent) (evs : List RequestEvent)
    (h : st.use_redis = false) :
    (startupState true).use_redis = false
    ∧ (∀ st' : ProcState, st'.use_redis = true → ev.redis_fails = true →
        (rateLimitStep cfg st' ev).1.use_redis = false
        ∧ (rateLimitStep cfg st' ev).2.fallback_used = true)
    ∧ (runSteps cfg st evs).1.use_redis = false
    ∧ ∀ o ∈ (runSteps cfg st evs).2,
        o.remote_attempted = false ∧ o.fallback_used = true := by
  obtain ⟨h1, h2⟩ := runSteps_fallback cfg evs st h
  exact ⟨rfl, fun st' hu hf => rateLimitStep_trip cfg st' ev hu hf, h1, h2⟩

/-- Claim C2 witness: a concrete process in fallback state, a request whose
remote call would fail, and a one-request trace. -/
theorem fallback_switch_is_sticky_witness :
    (startupState true).use_redis = false
    ∧ (∀ st' : ProcState, st'.use_redis = true →
        (RequestEvent.mk none "/products" 0 true).redis_fails = true →
        (rateLimitStep (Config.mk (Limits.mk 60 100 20) [] 2) st'
            (RequestEvent.mk none "/products" 0 true)).1.use_redis = false
        ∧ (rateLimitStep (Config.mk (Limits.mk 60 100 20) [] 2) st'
            (RequestEvent.mk none "/products" 0 true)).2.fallback_used = true)
    ∧ (runSteps (Config.mk (Limits.mk 60 100 20) [] 2) (startupState true)
        [RequestEvent.mk none "/products" 0 false]).1.use_redis = false
    ∧ ∀ o ∈ (runSteps (Config.mk (Limits.mk 60 100 20) [] 2) (startupState true)
        [RequestEvent.mk none "/products" 0 false]).2,
        o.remote_attempted = false ∧ o.fallback_used = true :=
  fallback_switch_is_sticky (Config.mk (Limits.mk 60 100 20) [] 2)
    (startupState true) (RequestEvent.mk none "/products" 0 true)
    [RequestEvent.mk none "/products" 0 false] rfl

/-- Claim C9: every request whose admission check denies — on the remote or
the fallback path — receives from the middleware the HTTP 429 response whose
JSON body names the route, the downstream handler is not invoked, and two
denials for the same path produce identical responses regardless of which
path denied. -/
theorem deny_returns_429_names_route (cfg cfg' : Config) (st st' : ProcState)
    (ev ev' : RequestEvent)
    (h : (rateLimitStep cfg st ev).2.allowed = false)
    (h' : (rateLimitStep cfg' st' ev').2.allowed = false)
    (hp : ev'.path = ev.path) :
    (rateLimitStep cfg st ev).2.response
        = RLResponse.rejected 429 ("Rate limit exceeded for " ++ ev.path)
    ∧ (rateLimitStep cfg st ev).2.response ≠ RLResponse.handled
    ∧ (rateLimitStep cfg' st' ev').2.response
        = (rateLimitStep cfg st ev).2.response := by
  have e1 := rateLimitStep_response cfg st ev
  rw [h, if_neg (by simp)] at e1
  have e2 := rateLimitStep_response cfg' st' ev'
  rw [h', if_neg (by simp)] at e2
  refine ⟨e1, ?_, ?_⟩
  · rw [e1]
    intro hcontra
    cases hcontra
  · rw [e1, e2, hp]

/-- Claim C9 witness: a zero-capacity default policy denies one request on
the remote path (Redis healthy) and one on the fallback path (failed startup
probe); both get the same 429 response naming the route. -/
theorem deny_returns_429_names_route_witness :
    (rateLimitStep (Config.mk (Limits.mk 60 0 0) [] 2) (startupState false)
        (RequestEvent.mk none "/products" 0 false)).2.response
        = RLResponse.rejected 429 ("Rate limit exceeded for "
            ++ (RequestEvent.mk (none : Option String) "/products" (0:ℚ) false).path)
    ∧ (rateLimitStep (Config.mk (Limits.mk 60 0 0) [] 2) (startupState false)
        (RequestEvent.mk none "/products" 0 false)).2.response ≠ RLResponse.handled
    ∧ (rateLimitStep (Config.mk (Limits.mk 60 0 0) [] 2) (startupState true)
        (RequestEvent.mk none "/products" 0 false)).2.response
        = (rateLimitStep (Config.mk (Limits.mk 60 0 0) [] 2) (startupState false)
            (RequestEvent.mk none "/products" 0 false)).2.response :=
  deny_returns_429_names_route (Config.mk (Limits.mk 60 0 0) [] 2)
    (Config.mk (Limits.mk 60 0 0) [] 2) (startupState false) (startupState true)
    (RequestEvent.mk none "/products" 0 false)
    (RequestEvent.mk none "/products" 0 false)
    (by norm_num [rateLimitStep, startupState, resolveLimits, fallbackCheck,
      mkOutcome, tokenBucketScript, tokenBucket, tokenBucketNew, mathMin,
      alGet, alSet])
    (by norm_num [rateLimitStep, startupState, resolveLimits, fallbackCheck,
      mkOutcome, InMemoryTokenBucket.init, InMemoryTokenBucket.check_and_update,
      InMemoryTokenBucket.capacity, InMemoryTokenBucket.replenish_rate,
      tokenBucket, tokenBucketNew, mathMin, alGet, alSet])
    rfl

end DistraLimit
